import Mathlib

/-!
Verification development for the db-monitor frontend
(`src/static/js/main.js`, with `src/unnamed/part_000` an earlier revision
of the same file).  The JavaScript is shallowly embedded: DOM state that a
function reads (form inputs, the `databases` map, incoming socket events)
becomes explicit arguments; the observable effects (the JSON payload of a
`fetch`, the updated `databases` map, the rendered sidebar structure)
become return values.  JavaScript objects with string keys become
association lists in insertion order, matching the iteration order of
`Object.keys` / `Object.values` for non-index string keys.
-/

namespace DbMonitor

/-! ## Connection form field templates (`DATABASE_CONFIGS`, main.js 33-108) -/

/-- One entry of a `fields` array in `DATABASE_CONFIGS`: an input template
with a name, label, HTML input type, `required` flag and optional numeric
default (only port fields carry a default). -/
structure FieldSpec where
  name : String
  label : String
  ftype : String
  placeholder : String := ""
  required : Bool
  default : Option Nat := none
  help : String := ""
deriving DecidableEq, Repr

/-- One engine entry of `DATABASE_CONFIGS`. -/
structure EngineConfig where
  displayName : String
  fields : List FieldSpec
deriving DecidableEq, Repr

/-- `DATABASE_CONFIGS` (main.js 33-108), keyed by engine kind in source
order. -/
def DATABASE_CONFIGS : List (String × EngineConfig) :=
  [ ("postgresql",
      { displayName := "PostgreSQL",
        fields :=
          [ { name := "host", label := "Host", ftype := "text", placeholder := "localhost", required := true },
            { name := "port", label := "Port", ftype := "number", placeholder := "5432", required := true, default := some 5432 },
            { name := "username", label := "Username", ftype := "text", required := true },
            { name := "password", label := "Password", ftype := "password", required := true },
            { name := "database", label := "Database Name", ftype := "text", required := true } ] }),
    ("mysql",
      { displayName := "MySQL / MariaDB",
        fields :=
          [ { name := "host", label := "Host", ftype := "text", placeholder := "localhost", required := true },
            { name := "port", label := "Port", ftype := "number", placeholder := "3306", required := true, default := some 3306 },
            { name := "username", label := "Username", ftype := "text", required := true },
            { name := "password", label := "Password", ftype := "password", required := true },
            { name := "database", label := "Database Name", ftype := "text", required := true } ] }),
    ("mssql",
      { displayName := "SQL Server",
        fields :=
          [ { name := "host", label := "Server", ftype := "text", placeholder := "localhost\\SQLEXPRESS", required := true },
            { name := "port", label := "Port", ftype := "number", placeholder := "1433", required := false, default := some 1433 },
            { name := "username", label := "Username", ftype := "text", required := true },
            { name := "password", label := "Password", ftype := "password", required := true },
            { name := "database", label := "Database Name", ftype := "text", required := true } ] }),
    ("oracle",
      { displayName := "Oracle",
        fields :=
          [ { name := "host", label := "Host", ftype := "text", placeholder := "localhost", required := true },
            { name := "port", label := "Port", ftype := "number", placeholder := "1521", required := true, default := some 1521 },
            { name := "username", label := "Username", ftype := "text", required := true },
            { name := "password", label := "Password", ftype := "password", required := true },
            { name := "database", label := "Service Name / SID", ftype := "text", required := true } ] }),
    ("sqlite",
      { displayName := "SQLite",
        fields :=
          [ { name := "filePath", label := "File Path", ftype := "text", placeholder := "./data/database.db", required := true, help := "Local path to SQLite file" } ] }),
    ("mongodb",
      { displayName := "MongoDB",
        fields :=
          [ { name := "host", label := "Host", ftype := "text", placeholder := "localhost", required := true },
            { name := "port", label := "Port", ftype := "number", placeholder := "27017", required := true, default := some 27017 },
            { name := "username", label := "Username", ftype := "text", required := false },
            { name := "password", label := "Password", ftype := "password", required := false },
            { name := "database", label := "Database Name", ftype := "text", required := true } ] }),
    ("opensearch",
      { displayName := "OpenSearch",
        fields :=
          [ { name := "host", label := "Host", ftype := "text", placeholder := "localhost", required := true },
            { name := "port", label := "Port", ftype := "number", placeholder := "9200", required := true, default := some 9200 },
            { name := "username", label := "Username", ftype := "text", required := false },
            { name := "password", label := "Password", ftype := "password", required := false } ] }),
    ("elasticsearch",
      { displayName := "Elasticsearch",
        fields :=
          [ { name := "host", label := "Host", ftype := "text", placeholder := "localhost", required := true },
            { name := "port", label := "Port", ftype := "number", placeholder := "9200", required := true, default := some 9200 },
            { name := "username", label := "Username", ftype := "text", required := false },
            { name := "password", label := "Password", ftype := "password", required := false } ] }) ]

/-- Lookup of `DATABASE_CONFIGS[databaseType]`. -/
def lookupConfig (databaseType : String) : Option EngineConfig :=
  (DATABASE_CONFIGS.find? (fun p => p.1 = databaseType)).map Prod.snd

/-- The field names of an engine's form, in source order (empty if the
engine kind is not a key of `DATABASE_CONFIGS`). -/
def configFieldNames (databaseType : String) : List String :=
  match lookupConfig databaseType with
  | none => []
  | some cfg => cfg.fields.map FieldSpec.name

/-! ## JSON values and `JSON.parse` (used by `validateExtraJson`, main.js 464-478) -/

/-- A parsed JSON value.  Numbers keep their source token; only the shape
of the value matters to the frontend (`typeof` / `Array.isArray`). -/
inductive Json where
  | null : Json
  | bool (b : Bool) : Json
  | num (tok : String) : Json
  | str (s : String) : Json
  | arr (elems : List Json) : Json
  | obj (members : List (String × Json)) : Json
deriving Repr

/-- The opening-brace character, `\x7b`. -/
def lbrace : Char := Char.ofNat 123

/-- The closing-brace character, `\x7d`. -/
def rbrace : Char := Char.ofNat 125

/-- JSON insignificant whitespace. -/
def isJsonWs (c : Char) : Bool :=
  c = ' ' || c = '\t' || c = '\n' || c = '\r'

/-- Skip insignificant whitespace. -/
def skipWs : List Char → List Char
  | [] => []
  | c :: rest => if isJsonWs c then skipWs rest else c :: rest

/-- Value of a hexadecimal digit. -/
def hexDigitVal (c : Char) : Option Nat :=
  if '0' ≤ c ∧ c ≤ '9' then some (c.toNat - '0'.toNat)
  else if 'a' ≤ c ∧ c ≤ 'f' then some (c.toNat - 'a'.toNat + 10)
  else if 'A' ≤ c ∧ c ≤ 'F' then some (c.toNat - 'A'.toNat + 10)
  else none

/-- Single-character JSON string escapes. -/
def simpleEscape (c : Char) : Option Char :=
  if c = '"' then some '"'
  else if c = '\\' then some '\\'
  else if c = '/' then some '/'
  else if c = 'b' then some (Char.ofNat 8)
  else if c = 'f' then some (Char.ofNat 12)
  else if c = 'n' then some '\n'
  else if c = 'r' then some (Char.ofNat 13)
  else if c = 't' then some '\t'
  else none

/-- Parse the body of a JSON string (the opening quote already consumed),
returning the string and the remaining input. -/
def parseStringBody (fuel : Nat) (acc : List Char) (s : List Char) : Option (String × List Char) :=
  match fuel, s with
  | 0, _ => none
  | _, [] => none
  | fuel + 1, c :: rest =>
    if c = '"' then some (String.mk acc.reverse, rest)
    else if c = '\\' then
      match rest with
      | 'u' :: h1 :: h2 :: h3 :: h4 :: r =>
        match hexDigitVal h1, hexDigitVal h2, hexDigitVal h3, hexDigitVal h4 with
        | some a, some b, some c2, some d =>
          parseStringBody fuel (Char.ofNat (((a * 16 + b) * 16 + c2) * 16 + d) :: acc) r
        | _, _, _, _ => none
      | e :: r =>
        match simpleEscape e with
        | some ec => parseStringBody fuel (ec :: acc) r
        | none => none
      | [] => none
    else if c.toNat < 32 then none
    else parseStringBody fuel (c :: acc) rest

/-- Parse the digits of a JSON number after its first character has been
validated; returns the consumed token (as chars) and the rest. -/
def takeDigits (s : List Char) : List Char × List Char :=
  s.span Char.isDigit

/-- Parse a JSON number token (`-? int frac? exp?`). -/
def parseNumber (s : List Char) : Option (String × List Char) :=
  let (sign, s1) := match s with
    | '-' :: r => (['-'], r)
    | _ => (([] : List Char), s)
  match s1 with
  | [] => none
  | c :: _ =>
    if ¬ c.isDigit then none
    else
      let (ip, s2) := if c = '0' then ([c], s1.tail) else takeDigits s1
      let fracRes : Option (List Char × List Char) :=
        match s2 with
        | '.' :: r =>
          match takeDigits r with
          | ([], _) => none
          | (ds, r2) => some ('.' :: ds, r2)
        | _ => some ([], s2)
      match fracRes with
      | none => none
      | some (fp, s3) =>
        let expRes : Option (List Char × List Char) :=
          match s3 with
          | e :: r =>
            if e = 'e' ∨ e = 'E' then
              let (es, r1) := match r with
                | '+' :: r2 => (['+'], r2)
                | '-' :: r2 => (['-'], r2)
                | _ => (([] : List Char), r)
              match takeDigits r1 with
              | ([], _) => none
              | (ds, r2) => some (e :: es ++ ds, r2)
            else some ([], s3)
          | [] => some ([], s3)
        match expRes with
        | none => none
        | some (ec, s5) => some (String.mk (sign ++ ip ++ fp ++ ec), s5)

mutual

/-- Parse one JSON value, returning it and the remaining input. -/
def parseValue (fuel : Nat) (s : List Char) : Option (Json × List Char) :=
  match fuel with
  | 0 => none
  | fuel + 1 =>
    match skipWs s with
    | [] => none
    | c :: rest =>
      if c = '"' then (parseStringBody (rest.length + 1) [] rest).map (fun p => (Json.str p.1, p.2))
      else if c = lbrace then parseObjBody fuel rest
      else if c = '[' then parseArrBody fuel rest
      else
        match c :: rest with
        | 't' :: 'r' :: 'u' :: 'e' :: r => some (Json.bool true, r)
        | 'f' :: 'a' :: 'l' :: 's' :: 'e' :: r => some (Json.bool false, r)
        | 'n' :: 'u' :: 'l' :: 'l' :: r => some (Json.null, r)
        | s' => (parseNumber s').map (fun p => (Json.num p.1, p.2))

/-- Parse an array body, just after the opening bracket. -/
def parseArrBody (fuel : Nat) (s : List Char) : Option (Json × List Char) :=
  match fuel with
  | 0 => none
  | fuel + 1 =>
    match skipWs s with
    | [] => none
    | c :: rest =>
      if c = ']' then some (Json.arr [], rest)
      else parseArrItems fuel (c :: rest) []

/-- Parse the comma-separated items of a non-empty array. -/
def parseArrItems (fuel : Nat) (s : List Char) (acc : List Json) : Option (Json × List Char) :=
  match fuel with
  | 0 => none
  | fuel + 1 =>
    match parseValue fuel s with
    | none => none
    | some (v, r) =>
      match skipWs r with
      | ',' :: r2 => parseArrItems fuel r2 (v :: acc)
      | ']' :: r2 => some (Json.arr (v :: acc).reverse, r2)
      | _ => none

/-- Parse an object body, just after the opening brace. -/
def parseObjBody (fuel : Nat) (s : List Char) : Option (Json × List Char) :=
  match fuel with
  | 0 => none
  | fuel + 1 =>
    match skipWs s with
    | [] => none
    | c :: rest =>
      if c = rbrace then some (Json.obj [], rest)
      else parseObjItems fuel (c :: rest) []

/-- Parse the comma-separated `"key": value` members of a non-empty object. -/
def parseObjItems (fuel : Nat) (s : List Char) (acc : List (String × Json)) : Option (Json × List Char) :=
  match fuel with
  | 0 => none
  | fuel + 1 =>
    match skipWs s with
    | '"' :: r =>
      match parseStringBody (r.length + 1) [] r with
      | none => none
      | some (key, r1) =>
        match skipWs r1 with
        | ':' :: r3 =>
          match parseValue fuel r3 with
          | none => none
          | some (v, r4) =>
            match skipWs r4 with
            | ',' :: r6 => parseObjItems fuel r6 ((key, v) :: acc)
            | c :: r6 =>
              if c = rbrace then some (Json.obj ((key, v) :: acc).reverse, r6) else none
            | [] => none
        | _ => none
    | _ => none

end

/-- `JSON.parse`: parse a complete JSON document (whitespace allowed around
it), or fail. -/
def jsonParse (s : String) : Option Json :=
  match parseValue (2 * s.length + 8) s.data with
  | some (v, rest) => if skipWs rest = [] then some v else none
  | none => none

/-- `typeof v === 'object'` for a parsed JSON value: true for objects,
arrays and `null`. -/
def jsTypeofIsObject : Json → Bool
  | Json.obj _ => true
  | Json.arr _ => true
  | Json.null => true
  | _ => false

/-- `Array.isArray`. -/
def jsIsArray : Json → Bool
  | Json.arr _ => true
  | _ => false

/-- `validateExtraJson` (main.js 464-478) applied to the already-trimmed
textarea value (`getExtraJson`, main.js 458-461, trims): empty is fine;
otherwise the value must parse and satisfy
`typeof parsed === 'object' && !Array.isArray(parsed)`. -/
def validateExtraJson (trimmed : String) : Bool :=
  if trimmed = "" then true
  else
    match jsonParse trimmed with
    | none => false
    | some v => jsTypeofIsObject v && !(jsIsArray v)

/-! ## The connection form and `saveConnection` (main.js 532-610) -/

/-- `String.prototype.trim`: strip leading and trailing whitespace. -/
def jsTrim (s : String) : String :=
  String.mk (((s.data.dropWhile Char.isWhitespace).reverse.dropWhile Char.isWhitespace).reverse)

/-- The state of the add/edit-connection modal as `saveConnection` reads it
from the DOM: the name, type and hidden id inputs, the group input, the
raw extra-JSON textarea, and the per-field dynamic inputs (`field_<name>`,
looked up by field name; a missing input reads as the empty string). -/
structure ConnectionForm where
  connectionName : String
  connectionType : String
  connectionId : String
  groupName : String
  extraJson : String
  fieldValues : String → String

/-- The JSON body `saveConnection` posts to `/api/save-connection`. -/
structure SavePayload where
  name : String
  type : String
  fields : List (String × String)
  extra_json : String
  group : String
  id : Option String
deriving DecidableEq, Repr

/-- One iteration of the validation loop in `saveConnection`
(main.js 567-580): a blank password is let through when an id is present
(editing); otherwise a required field must be non-empty. -/
def fieldAccepted (isUpdate : Bool) (f : FieldSpec) (value : String) : Bool :=
  if isUpdate ∧ f.ftype = "password" ∧ value = "" then true
  else !(f.required ∧ value = "")

/-- `saveConnection` (main.js 532-610) up to its network effect: the
payload it posts, or `none` when validation stops it (empty name or type,
invalid extra JSON, or a missing required field). -/
def saveConnection (form : ConnectionForm) : Option SavePayload :=
  if form.connectionName = "" then none
  else if form.connectionType = "" then none
  else if validateExtraJson (jsTrim form.extraJson) = false then none
  else
    match lookupConfig form.connectionType with
    | none => none
    | some cfg =>
      let isUpdate : Bool := form.connectionId != ""
      if cfg.fields.all (fun f => fieldAccepted isUpdate f (form.fieldValues f.name)) then
        some { name := form.connectionName,
               type := form.connectionType,
               fields := cfg.fields.map (fun f => (f.name, form.fieldValues f.name)),
               extra_json := (jsTrim form.extraJson),
               group := (jsTrim form.groupName),
               id := if form.connectionId = "" then none else some form.connectionId }
      else none

/-- The value `renderDynamicFields` (main.js 307-343) puts into a fresh
input: `value="${field.default || ''}"`. -/
def renderedDefaultValue (f : FieldSpec) : String :=
  match f.default with
  | some n => toString n
  | none => ""

/-- The per-field input values after `editConnection` (main.js 366-455)
pre-fills the form: the inputs are first rendered with their defaults,
then every stored field with an input is copied in — except that a
password-typed input is left untouched (only its placeholder is changed),
so it keeps its rendered value.  Password fields carry no default, so the
password input value is the empty string. -/
def editFormValues (cfg : EngineConfig) (storedFields : List (String × String)) :
    List (String × String) :=
  cfg.fields.map (fun f =>
    (f.name,
      if f.ftype = "password" then renderedDefaultValue f
      else
        match storedFields.find? (fun p => p.1 = f.name) with
        | some p => p.2
        | none => renderedDefaultValue f))

/-- Modelled from the spec: the server-side `update(user, id, spec)` of
the ConnectionRegistry is not part of `src/` (only the frontend is).  Per
the spec, "password-typed fields left blank in the request mean keep
existing encrypted value — never overwritten with empty": merging one
incoming field value into the stored record. -/
def mergeUpdatedField (isPassword : Bool) (storedValue incomingValue : String) : String :=
  if isPassword then
    if incomingValue = "" then storedValue else incomingValue
  else incomingValue

/-! ## Folder creation (`addFolderBtn` handler, main.js 239-260) -/

/-- The JSON body the add-folder handler posts to `/api/save-connection`. -/
structure FolderPayload where
  name : String
  type : String
  fields : List (String × String)
  group : String
deriving DecidableEq, Repr

/-- The add-folder click handler (main.js 239-260): `prompt` returns
`none` (cancelled) or a string; a folder placeholder is posted only when
the string is truthy and its trim is truthy. -/
def addFolder (promptResult : Option String) : Option FolderPayload :=
  match promptResult with
  | none => none
  | some folderName =>
    if folderName ≠ "" ∧ (jsTrim folderName) ≠ "" then
      some { name := (jsTrim folderName),
             type := "folder",
             fields := [],
             group := (jsTrim folderName) }
    else none

/-! ## The client-side `databases` map -/

/-- A status object carried by a `db_status_update` event or cached on a
database entry. -/
structure Status where
  connected : Bool
  error : Option String := none
deriving DecidableEq, Repr

/-- One entry of the client's `databases` map (as returned by
`/api/databases` and indexed by `db.key`).  The map itself is the list of
entries in insertion order.  A missing `group` and a missing `order` are
read through `|| `-defaults everywhere in the source, so they are modelled
as `""` and `0`. -/
structure DbEntry where
  key : String
  name : String
  engine : String
  group : String := ""
  order : Int := 0
  fields : List (String × String) := []
  extra_json : String := ""
  status : Option Status := none
deriving DecidableEq, Repr

/-- `databases[k]`. -/
def lookupDb (dbs : List DbEntry) (k : String) : Option DbEntry :=
  dbs.find? (fun db => db.key = k)

/-- `updateDatabaseStatus` (main.js 1076-1087): if the key is present, its
entry's `status` field is replaced; nothing else in the map changes. -/
def updateDatabaseStatus (dbs : List DbEntry) (dbKey : String) (st : Status) : List DbEntry :=
  dbs.map (fun db => if db.key = dbKey then { db with status := some st } else db)

/-- The status-polling interval (main.js 142-146): `setInterval(..., 5000)`. -/
def STATUS_POLL_INTERVAL_MS : Nat := 5000

/-- The keys for which one poll tick emits a `check_status` request
(main.js 143-145): `Object.keys(databases)`. -/
def tickEmittedKeys (dbs : List DbEntry) : List String :=
  dbs.map DbEntry.key

/-! ## Reorder (`saveReorder` and `handleDrop`, main.js 972-1061) -/

/-- One element of the `updates` array posted to
`/api/connections/reorder`. -/
structure ReorderUpdate where
  key : String
  group : String
  order : Int
deriving DecidableEq, Repr

/-- The optimistic local application of a reorder batch
(`saveReorder`, main.js 1043-1048): for each update whose key is present,
set that entry's `group` and `order`. -/
def applyReorderLocal (dbs : List DbEntry) (updates : List ReorderUpdate) : List DbEntry :=
  updates.foldl
    (fun acc u =>
      acc.map (fun db => if db.key = u.key then { db with group := u.group, order := u.order } else db))
    dbs

/-- The comparison the source sorts siblings with:
`(a, b) => (a.order || 0) - (b.order || 0)` under the stable
`Array.prototype.sort`. -/
def leOrder (a b : DbEntry) : Prop := a.order ≤ b.order

instance : DecidableRel leOrder := fun a b => Int.decLe a.order b.order

instance : IsTotal DbEntry leOrder := ⟨fun a b => Int.le_total a.order b.order⟩

instance : IsTrans DbEntry leOrder := ⟨fun _ _ _ h1 h2 => Int.le_trans h1 h2⟩

/-- Stable sort by ascending `order`, modelling
`siblings.sort((a, b) => (a.order || 0) - (b.order || 0))`. -/
def sortByOrder (l : List DbEntry) : List DbEntry :=
  l.insertionSort leOrder

/-- `Array.prototype.splice(i, 0, a)`: insert at index `i` (append when
`i` exceeds the length). -/
def insertAt : Nat → DbEntry → List DbEntry → List DbEntry
  | 0, a, l => a :: l
  | _ + 1, a, [] => [a]
  | n + 1, a, x :: xs => x :: insertAt n a xs

/-- `list.map((x, index) => f index x)`, with indices starting at `i`. -/
def mapIdxFrom (i : Nat) (f : Nat → DbEntry → ReorderUpdate) : List DbEntry → List ReorderUpdate
  | [] => []
  | x :: xs => f i x :: mapIdxFrom (i + 1) f xs

/-- `handleDrop` (main.js 972-1008) up to its call to `saveReorder`: the
batch of updates produced by dropping `draggedKey` onto the item
`targetKey`, or `none` when the handler returns without posting (no drag
in progress, self-drop, or a key that is not in the map — the last would
throw in the source and so also posts nothing). -/
def handleDrop (dbs : List DbEntry) (draggedKey targetKey : String) :
    Option (List ReorderUpdate) :=
  if draggedKey = "" ∨ draggedKey = targetKey then none
  else
    match lookupDb dbs draggedKey, lookupDb dbs targetKey with
    | some draggedDb, some targetDb =>
      let newGroup := targetDb.group
      let siblings := dbs.filter (fun d => d.group = newGroup ∧ d.key ≠ draggedKey)
      let sorted := sortByOrder siblings
      let targetIndex := sorted.findIdx (fun d => d.key = targetKey)
      let withDragged := insertAt targetIndex draggedDb sorted
      some (mapIdxFrom 0 (fun i db => { key := db.key, group := newGroup, order := (i : Int) }) withDragged)
    | _, _ => none

/-! ## Sidebar rendering (`renderDatabaseList`, main.js 696-814) -/

/-- The group name a folder placeholder stands for:
`db.group || db.name` (main.js 748). -/
def folderGroupName (db : DbEntry) : String :=
  if db.group = "" then db.name else db.group

/-- Add a (possibly empty) group key if absent, preserving insertion
order. -/
def ensureGroup (gs : List (String × List DbEntry)) (g : String) :
    List (String × List DbEntry) :=
  if gs.any (fun p => p.1 = g) then gs else gs ++ [(g, [])]

/-- Push an entry onto a group's list, creating the group if absent. -/
def appendToGroup (gs : List (String × List DbEntry)) (g : String) (db : DbEntry) :
    List (String × List DbEntry) :=
  if gs.any (fun p => p.1 = g) then
    gs.map (fun p => if p.1 = g then (p.1, p.2 ++ [db]) else p)
  else gs ++ [(g, [db])]

/-- The grouping loop of `renderDatabaseList` (main.js 744-759): folder
placeholders only create their group; grouped entries are pushed onto
their group; the rest go to `ungrouped`. -/
def renderGroupsLoop : List DbEntry → List (String × List DbEntry) → List DbEntry →
    List (String × List DbEntry) × List DbEntry
  | [], gs, ung => (gs, ung)
  | db :: rest, gs, ung =>
    if db.engine = "folder" then
      renderGroupsLoop rest (ensureGroup gs (folderGroupName db)) ung
    else if db.group ≠ "" then
      renderGroupsLoop rest (appendToGroup gs db.group db) ung
    else
      renderGroupsLoop rest gs (ung ++ [db])

/-- The groups object and the ungrouped array built by
`renderDatabaseList`, before sorting. -/
def buildGroups (dbs : List DbEntry) : List (String × List DbEntry) × List DbEntry :=
  renderGroupsLoop dbs [] []

/-- The root-level items as rendered, in order (main.js 762-763, 771-780):
the ungrouped entries sorted by ascending `order`. -/
def renderedUngrouped (dbs : List DbEntry) : List DbEntry :=
  sortByOrder (buildGroups dbs).2

/-- The groups as rendered, in order (main.js 764-766, 783-811): each
group's items sorted by ascending `order`; the groups themselves iterated
with `Object.keys(groups)`, i.e. in insertion order of first appearance —
the sorted key list built on line 764 is used only to sort the contents,
not to order the rendering loop on line 783. -/
def renderedGroups (dbs : List DbEntry) : List (String × List DbEntry) :=
  (buildGroups dbs).1.map (fun p => (p.1, sortByOrder p.2))

/-- The group keys in order of first appearance, written independently of
the rendering loop: the group key contributed by each entry, deduplicated
keeping first occurrences. -/
def groupKeyOf (db : DbEntry) : Option String :=
  if db.engine = "folder" then some (folderGroupName db)
  else if db.group ≠ "" then some db.group
  else none

/-- Deduplicate keeping first occurrences. -/
def dedupFirst (l : List String) : List String :=
  l.foldl (fun acc g => if g ∈ acc then acc else acc ++ [g]) []

/-- The rendered group-name order stated independently: first-appearance
order of the entries' group keys. -/
def firstAppearanceGroups (dbs : List DbEntry) : List String :=
  dedupFirst (dbs.filterMap groupKeyOf)

/-! ## The global fetch wrapper (main.js 5-23) -/

/-- An HTTP response as the wrapper inspects it: the status code, whether
`response.clone().json()` succeeds, and the truthy `error` field of the
parsed body when there is one (`some e` implies the body parses). -/
structure HttpResponse where
  status : Nat
  bodyParses : Bool := true
  errorField : Option String := none
deriving DecidableEq, Repr

/-- What the wrapper does with a response. -/
inductive FetchOutcome where
  | redirectedToLogin : FetchOutcome
  | returned (resp : HttpResponse) (shownMessage : Option String) : FetchOutcome
deriving DecidableEq, Repr

/-- The wrapped `window.fetch` (main.js 5-23): a 401 redirects to `/login`
and throws, so the response never reaches the caller; a 403 shows the
body's `error` (or a generic message when the body does not parse) and
still returns the response; everything else is returned untouched. -/
def fetchWrapper (resp : HttpResponse) : FetchOutcome :=
  if resp.status = 401 then FetchOutcome.redirectedToLogin
  else if resp.status = 403 then
    FetchOutcome.returned resp
      (if resp.bodyParses then resp.errorField else some "Access denied (403 Forbidden)")
  else FetchOutcome.returned resp none

/-! ## HTML escaping and result cells (main.js 1302-1369, 1406-1476) -/

/-- The apostrophe character. -/
def singleQuote : Char := Char.ofNat 39

/-- The replacement for one character under
`text.replace(/[&<>"']/g, m => map[m])` (`escapeHtml`, main.js 1467-1476). -/
def escapeCharL (c : Char) : List Char :=
  if c = '&' then "&amp;".data
  else if c = '<' then "&lt;".data
  else if c = '>' then "&gt;".data
  else if c = '"' then "&quot;".data
  else if c = singleQuote then "&#039;".data
  else [c]

/-- `escapeHtml` on the character list. -/
def escapeList : List Char → List Char
  | [] => []
  | c :: rest => escapeCharL c ++ escapeList rest

/-- `escapeHtml` (main.js 1467-1476). -/
def escapeHtml (text : String) : String :=
  String.mk (escapeList text.data)

/-- Every ampersand in the list begins one of the five entities
`&amp; &lt; &gt; &quot; &#039;`. -/
def entityOk : List Char → Bool
  | [] => true
  | c :: rest =>
    if c = '&' then
      if rest.take 4 = "amp;".data then entityOk (rest.drop 4)
      else if rest.take 3 = "lt;".data then entityOk (rest.drop 3)
      else if rest.take 3 = "gt;".data then entityOk (rest.drop 3)
      else if rest.take 5 = "quot;".data then entityOk (rest.drop 5)
      else if rest.take 5 = "#039;".data then entityOk (rest.drop 5)
      else false
    else entityOk rest
termination_by l => l.length
decreasing_by
  all_goals simp [List.length_drop]
  all_goals omega

/-- `s.substring(0, 100)`. -/
def truncate100 (s : String) : String :=
  String.mk (s.data.take 100)

/-- The placeholder rendered for a SQL NULL cell. -/
def NULL_CELL_HTML : String := "<em style=\"color: #999;\">NULL</em>"

/-- One table cell of `renderQueryResults` (main.js 1435):
`value === null ? '<em ...>NULL</em>' : escapeHtml(String(value)).substring(0, 100)`;
a non-null value is passed as its stringification. -/
def queryResultCell (value : Option String) : String :=
  match value with
  | none => NULL_CELL_HTML
  | some v => truncate100 (escapeHtml v)

/-- One table cell of `renderTablePreview` (main.js 1330), identical in
the source to the query-result cell. -/
def tablePreviewCell (value : Option String) : String :=
  match value with
  | none => NULL_CELL_HTML
  | some v => truncate100 (escapeHtml v)

/-! ## Claim-side definitions (stated from the spec's words, for
comparison with the source-side definitions above) -/

/-- The shape of one field requirement as the spec's table states it:
name, input type, required flag, and whether a typed default is present. -/
structure FieldReqSummary where
  name : String
  ftype : String
  required : Bool
  hasDefault : Bool
deriving DecidableEq, Repr

/-- The requirement summary of one source-side field template. -/
def summarizeField (f : FieldSpec) : FieldReqSummary :=
  { name := f.name, ftype := f.ftype, required := f.required, hasDefault := f.default.isSome }

/-- The source-side field-requirement table extracted from
`DATABASE_CONFIGS`. -/
def configFieldTable : List (String × List FieldReqSummary) :=
  DATABASE_CONFIGS.map (fun p => (p.1, p.2.fields.map summarizeField))

/-- Claim C1's field list for the engines it groups together
("postgres(ql)/mysql/oracle/mongodb/opensearch/elasticsearch take host,
port, username, password, and database-name"). -/
def claimHostEngineFieldNames : List String :=
  ["host", "port", "username", "password", "database"]

/-- The field-requirement table as amended: as the spec's table, except
that opensearch/elasticsearch have no database-name field, and mssql also
takes required username, password and database-name. -/
def amendedFieldTable : List (String × List FieldReqSummary) :=
  let hostPart : List FieldReqSummary :=
    [ { name := "host", ftype := "text", required := true, hasDefault := false },
      { name := "port", ftype := "number", required := true, hasDefault := true } ]
  let credsRequired : List FieldReqSummary :=
    [ { name := "username", ftype := "text", required := true, hasDefault := false },
      { name := "password", ftype := "password", required := true, hasDefault := false } ]
  let credsOptional : List FieldReqSummary :=
    [ { name := "username", ftype := "text", required := false, hasDefault := false },
      { name := "password", ftype := "password", required := false, hasDefault := false } ]
  let databaseName : List FieldReqSummary :=
    [ { name := "database", ftype := "text", required := true, hasDefault := false } ]
  [ ("postgresql", hostPart ++ credsRequired ++ databaseName),
    ("mysql", hostPart ++ credsRequired ++ databaseName),
    ("mssql",
      [ { name := "host", ftype := "text", required := true, hasDefault := false },
        { name := "port", ftype := "number", required := false, hasDefault := true } ]
        ++ credsRequired ++ databaseName),
    ("oracle", hostPart ++ credsRequired ++ databaseName),
    ("sqlite", [ { name := "filePath", ftype := "text", required := true, hasDefault := false } ]),
    ("mongodb", hostPart ++ credsOptional ++ databaseName),
    ("opensearch", hostPart ++ credsOptional),
    ("elasticsearch", hostPart ++ credsOptional) ]

/-- Claim C2's acceptance condition, stated from the spec's words: the
trimmed value is empty, or parses as a JSON object — "not an array or
scalar". -/
def claimExtraJsonAccepts (trimmed : String) : Bool :=
  if trimmed = "" then true
  else
    match jsonParse trimmed with
    | some (Json.obj _) => true
    | _ => false

/-- Lexicographic string comparison (the claim-side "sorted by group
name" order), written over character lists so it evaluates. -/
def charListLe : List Char → List Char → Bool
  | [], _ => true
  | _ :: _, [] => false
  | a :: as, b :: bs => if a < b then true else if b < a then false else charListLe as bs

/-- `a ≤ b` on strings, claim-side. -/
def strLe (a b : String) : Bool := charListLe a.data b.data

/-- The elementwise effect of a reorder batch on one entry (used to state
the frame property of `applyReorderLocal`). -/
def applyUpdates (updates : List ReorderUpdate) (db : DbEntry) : DbEntry :=
  updates.foldl
    (fun d u => if d.key = u.key then { d with group := u.group, order := u.order } else d)
    db

/-! ## Claim theorems -/

/-- C1, counterexample: the claim's field table gives
opensearch/elasticsearch a database-name field, but in `DATABASE_CONFIGS`
their forms have only host, port, username and password — no
database-name field exists for either engine. -/
theorem C1_counterexample :
    "database" ∈ claimHostEngineFieldNames ∧
    configFieldNames "opensearch" = ["host", "port", "username", "password"] ∧
    "database" ∉ configFieldNames "opensearch" ∧
    configFieldNames "elasticsearch" = ["host", "port", "username", "password"] ∧
    "database" ∉ configFieldNames "elasticsearch" := by
  decide

/-- C1 (amended): the connection form's field requirements match the
spec's table except that opensearch/elasticsearch take no database-name
field, and mssql additionally takes required username, password and
database-name; and `saveConnection` refuses to send a save request while
any required field is empty, except that when editing (an id is present) a
blank password-typed field is permitted. -/
theorem C1_field_requirements :
    configFieldTable = amendedFieldTable ∧
    (∀ (form : ConnectionForm) (cfg : EngineConfig) (f : FieldSpec),
      lookupConfig form.connectionType = some cfg →
      f ∈ cfg.fields → f.required = true → form.fieldValues f.name = "" →
      (form.connectionId = "" ∨ f.ftype ≠ "password") →
      saveConnection form = none) := by
  constructor
  · decide
  · intro form cfg f hcfg hf hreq hval hexc
    by_cases h1 : form.connectionName = ""
    · simp [saveConnection, h1]
    by_cases h2 : form.connectionType = ""
    · simp [saveConnection, h1, h2]
    by_cases h3 : validateExtraJson (jsTrim form.extraJson) = false
    · simp [saveConnection, h1, h2, h3]
    have hacc : fieldAccepted (form.connectionId != "") f (form.fieldValues f.name) = false := by
      have hcond : ¬ (((form.connectionId != "") : Bool) = true ∧ f.ftype = "password" ∧ form.fieldValues f.name = "") := by
        rcases hexc with hid | hty
        · rintro ⟨hu, -, -⟩
          simp [hid] at hu
        · rintro ⟨-, hp, -⟩
          exact hty hp
      rw [fieldAccepted, if_neg hcond]
      simp [hreq, hval]
    have hall : cfg.fields.all
        (fun f' => fieldAccepted (form.connectionId != "") f' (form.fieldValues f'.name)) = false := by
      rw [List.all_eq_false]
      exact ⟨f, hf, by simp [hacc]⟩
    simp [saveConnection, h1, h2, h3, hcfg, hall]

/-- C1 witness: the table part, and `saveConnection` refusing a fresh
postgresql form whose required username is empty. -/
theorem C1_field_requirements_witness :
    configFieldTable = amendedFieldTable ∧
    saveConnection
      { connectionName := "pg1", connectionType := "postgresql", connectionId := "",
        groupName := "", extraJson := "",
        fieldValues := fun n => if n = "host" then "localhost" else "" } = none :=
  ⟨C1_field_requirements.1,
    C1_field_requirements.2
      { connectionName := "pg1", connectionType := "postgresql", connectionId := "",
        groupName := "", extraJson := "",
        fieldValues := fun n => if n = "host" then "localhost" else "" }
      { displayName := "PostgreSQL",
        fields :=
          [ { name := "host", label := "Host", ftype := "text", placeholder := "localhost", required := true },
            { name := "port", label := "Port", ftype := "number", placeholder := "5432", required := true, default := some 5432 },
            { name := "username", label := "Username", ftype := "text", required := true },
            { name := "password", label := "Password", ftype := "password", required := true },
            { name := "database", label := "Database Name", ftype := "text", required := true } ] }
      { name := "username", label := "Username", ftype := "text", required := true }
      (by decide) (by decide) (by decide) (by decide) (Or.inl rfl)⟩

/-- C2, counterexample: the string `"null"` parses as the JSON scalar
`null`, which is neither an object nor empty, yet `validateExtraJson`
accepts it (`typeof null === 'object'` in JavaScript), contradicting
"accepted if and only if it is empty or parses as a JSON object that is
neither an array nor a scalar". -/
theorem C2_counterexample :
    validateExtraJson "null" = true ∧
    claimExtraJsonAccepts "null" = false ∧
    jsonParse "null" = some Json.null :=
  ⟨rfl, rfl, rfl⟩

/-- C2 (amended): the extra-options value is accepted iff it is empty or
parses as a JSON value of JavaScript type "object" that is not an array —
that is, a JSON object or the literal `null`; an invalid value stops
`saveConnection` before any request is sent. -/
theorem C2_extra_json_acceptance :
    (∀ t : String, validateExtraJson t = true ↔
      (t = "" ∨ ∃ v, jsonParse t = some v ∧ jsTypeofIsObject v = true ∧ jsIsArray v = false)) ∧
    (∀ form : ConnectionForm,
      validateExtraJson (jsTrim form.extraJson) = false → saveConnection form = none) := by
  constructor
  · intro t
    unfold validateExtraJson
    by_cases ht : t = ""
    · simp [ht]
    · rw [if_neg ht]
      cases hp : jsonParse t with
      | none => simp [ht]
      | some v =>
        simp only [ht, false_or, Bool.and_eq_true, Bool.not_eq_true']
        constructor
        · rintro ⟨h1, h2⟩
          exact ⟨v, rfl, h1, h2⟩
        · rintro ⟨v', hv', h1, h2⟩
          cases hv'
          exact ⟨h1, h2⟩
  · intro form h
    by_cases h1 : form.connectionName = ""
    · simp [saveConnection, h1]
    by_cases h2 : form.connectionType = ""
    · simp [saveConnection, h1, h2]
    simp [saveConnection, h1, h2, h]

/-- C2 witness: the acceptance characterisation at the concrete input
`"[1]"`, and `saveConnection` blocked by that invalid extra JSON. -/
theorem C2_extra_json_acceptance_witness :
    (validateExtraJson "[1]" = true ↔
      (("[1]" : String) = "" ∨
        ∃ v, jsonParse "[1]" = some v ∧ jsTypeofIsObject v = true ∧ jsIsArray v = false)) ∧
    saveConnection
      { connectionName := "c1", connectionType := "sqlite", connectionId := "",
        groupName := "", extraJson := "[1]",
        fieldValues := fun _ => "x" } = none :=
  ⟨C2_extra_json_acceptance.1 "[1]",
    C2_extra_json_acceptance.2
      { connectionName := "c1", connectionType := "sqlite", connectionId := "",
        groupName := "", extraJson := "[1]",
        fieldValues := fun _ => "x" }
      (by decide)⟩

/-- C3: when an id is present, a blank password-typed field passes
validation and the save request is sent with the password as the empty
string; the edit form never pre-fills the stored password into the
password input; and (modelled from the spec, small print on
`mergeUpdatedField`) the server keeps the existing encrypted value for a
blank password, never overwriting it with empty. -/
theorem C3_blank_password_update :
    (∀ (engine : String) (cfg : EngineConfig) (stored : List (String × String)) (f : FieldSpec),
      lookupConfig engine = some cfg → f ∈ cfg.fields → f.ftype = "password" →
      (f.name, "") ∈ editFormValues cfg stored) ∧
    (∀ (form : ConnectionForm) (cfg : EngineConfig),
      lookupConfig form.connectionType = some cfg →
      form.connectionName ≠ "" →
      validateExtraJson (jsTrim form.extraJson) = true →
      form.connectionId ≠ "" →
      (∀ f ∈ cfg.fields, f.required = true → f.ftype ≠ "password" → form.fieldValues f.name ≠ "") →
      ∃ p, saveConnection form = some p ∧
        p.fields = cfg.fields.map (fun f => (f.name, form.fieldValues f.name)) ∧
        ∀ f ∈ cfg.fields, f.ftype = "password" → form.fieldValues f.name = "" →
          (f.name, "") ∈ p.fields) ∧
    (∀ storedValue incomingValue : String,
      mergeUpdatedField true storedValue "" = storedValue ∧
      (storedValue ≠ "" → mergeUpdatedField true storedValue incomingValue ≠ "")) := by
  refine ⟨?edit, ?send, ?merge⟩
  case edit =>
    intro engine cfg stored f hcfg hf hpw
    have hdef : f.default = none := by
      have hmem : (engine, cfg) ∈ DATABASE_CONFIGS := by
        unfold lookupConfig at hcfg
        cases hfind : DATABASE_CONFIGS.find? (fun p => p.1 = engine) with
        | none => rw [hfind] at hcfg; exact absurd hcfg (by simp)
        | some pr =>
          rw [hfind] at hcfg
          have hpr : pr.2 = cfg := by simpa using hcfg
          have hk : pr.1 = engine := by
            have := List.find?_some hfind
            simpa using this
          have hmem' : pr ∈ DATABASE_CONFIGS := List.mem_of_find?_eq_some hfind
          rw [← hk, ← hpr]
          simpa using hmem'
      have hall : ∀ p ∈ DATABASE_CONFIGS, ∀ f' ∈ p.2.fields,
          f'.ftype = "password" → f'.default = none := by decide
      exact hall _ hmem f hf hpw
    have : (f.name, if f.ftype = "password" then renderedDefaultValue f
        else match stored.find? (fun p => p.1 = f.name) with
          | some p => p.2
          | none => renderedDefaultValue f) ∈ editFormValues cfg stored := by
      unfold editFormValues
      exact List.mem_map_of_mem _ hf
    rw [if_pos hpw] at this
    simpa [renderedDefaultValue, hdef] using this
  case send =>
    intro form cfg hcfg hname hjson hid hreqs
    have htype : form.connectionType ≠ "" := by
      intro he
      rw [he] at hcfg
      have : lookupConfig "" = none := by decide
      rw [this] at hcfg
      exact Option.noConfusion hcfg
    have hall : cfg.fields.all
        (fun f => fieldAccepted (form.connectionId != "") f (form.fieldValues f.name)) = true := by
      rw [List.all_eq_true]
      intro f hf
      rw [fieldAccepted]
      by_cases hpw : f.ftype = "password"
      · by_cases hv : form.fieldValues f.name = ""
        · rw [if_pos ⟨by simp [hid], hpw, hv⟩]
        · rw [if_neg (by rintro ⟨-, -, h⟩; exact hv h)]
          simp [hv]
      · rw [if_neg (by rintro ⟨-, hp, -⟩; exact hpw hp)]
        by_cases hreq : f.required = true
        · simp [hreqs f hf hreq hpw]
        · simp [hreq]
    refine ⟨{ name := form.connectionName, type := form.connectionType,
              fields := cfg.fields.map (fun f => (f.name, form.fieldValues f.name)),
              extra_json := jsTrim form.extraJson, group := jsTrim form.groupName,
              id := some form.connectionId }, ?_, rfl, ?_⟩
    · unfold saveConnection
      rw [if_neg hname, if_neg htype, if_neg (by simp [hjson]), hcfg]
      simp only [hall, if_pos, if_true]
      rw [if_neg hid]
    · intro f hf hpw hv
      have : (f.name, form.fieldValues f.name) ∈
          cfg.fields.map (fun f' => (f'.name, form.fieldValues f'.name)) :=
        List.mem_map_of_mem _ hf
      rw [hv] at this
      exact this
  case merge =>
    intro storedValue incomingValue
    constructor
    · simp [mergeUpdatedField]
    · intro hs
      unfold mergeUpdatedField
      by_cases hi : incomingValue = "" <;> simp [hi, hs]

/-- C3 witness: editing a postgresql connection "k1" with a blank password
input: the password is not pre-filled, the request is sent with
password = "", and the modelled server merge keeps the old encrypted
value. -/
theorem C3_blank_password_update_witness :
    ("password", "") ∈
      editFormValues
        { displayName := "PostgreSQL",
          fields :=
            [ { name := "host", label := "Host", ftype := "text", placeholder := "localhost", required := true },
              { name := "port", label := "Port", ftype := "number", placeholder := "5432", required := true, default := some 5432 },
              { name := "username", label := "Username", ftype := "text", required := true },
              { name := "password", label := "Password", ftype := "password", required := true },
              { name := "database", label := "Database Name", ftype := "text", required := true } ] }
        [("host", "h1"), ("password", "")] ∧
    (∃ p, saveConnection
        { connectionName := "pg1", connectionType := "postgresql", connectionId := "k1",
          groupName := "", extraJson := "",
          fieldValues := fun n => if n = "password" then "" else "v" } = some p ∧
      p.fields =
        [("host", "v"), ("port", "v"), ("username", "v"), ("password", ""), ("database", "v")] ∧
      ("password", "") ∈ p.fields) ∧
    mergeUpdatedField true "encrypted-old" "" = "encrypted-old" := by
  refine ⟨?_, ?_, (C3_blank_password_update.2.2 "encrypted-old" "x").1⟩
  · exact C3_blank_password_update.1 "postgresql" _ _
      { name := "password", label := "Password", ftype := "password", required := true }
      (by decide) (by decide) rfl
  · have h := C3_blank_password_update.2.1
      { connectionName := "pg1", connectionType := "postgresql", connectionId := "k1",
        groupName := "", extraJson := "",
        fieldValues := fun n => if n = "password" then "" else "v" }
      { displayName := "PostgreSQL",
        fields :=
          [ { name := "host", label := "Host", ftype := "text", placeholder := "localhost", required := true },
            { name := "port", label := "Port", ftype := "number", placeholder := "5432", required := true, default := some 5432 },
            { name := "username", label := "Username", ftype := "text", required := true },
            { name := "password", label := "Password", ftype := "password", required := true },
            { name := "database", label := "Database Name", ftype := "text", required := true } ] }
      (by decide) (by decide) (by decide) (by decide) (by decide)
    rcases h with ⟨p, hp, hfields, hpw⟩
    exact ⟨p, hp, by rw [hfields]; rfl, by rw [hfields]; decide⟩

/-- Entries inside an `ensureGroup` result come from the original groups. -/
theorem ensureGroup_members (gs : List (String × List DbEntry)) (g : String) :
    ∀ p ∈ ensureGroup gs g, ∀ x ∈ p.2, ∃ q ∈ gs, x ∈ q.2 := by
  intro p hp x hx
  unfold ensureGroup at hp
  split at hp
  · exact ⟨p, hp, hx⟩
  · rcases List.mem_append.1 hp with h | h
    · exact ⟨p, h, hx⟩
    · simp at h
      rw [h] at hx
      simp at hx

/-- Entries inside an `appendToGroup` result come from the original groups
or are the pushed entry. -/
theorem appendToGroup_members (gs : List (String × List DbEntry)) (g : String) (db : DbEntry) :
    ∀ p ∈ appendToGroup gs g db, ∀ x ∈ p.2, (∃ q ∈ gs, x ∈ q.2) ∨ x = db := by
  intro p hp x hx
  unfold appendToGroup at hp
  split at hp
  · rcases List.mem_map.1 hp with ⟨q, hq, hpq⟩
    by_cases hg : q.1 = g
    · rw [if_pos hg] at hpq
      rw [← hpq] at hx
      rcases List.mem_append.1 hx with h | h
      · exact Or.inl ⟨q, hq, h⟩
      · simp at h
        exact Or.inr h
    · rw [if_neg hg] at hpq
      rw [← hpq] at hx
      exact Or.inl ⟨q, hq, hx⟩
  · rcases List.mem_append.1 hp with h | h
    · exact Or.inl ⟨p, h, hx⟩
    · simp at h
      rw [h] at hx
      simp at hx
      exact Or.inr hx

/-- `ensureGroup` keeps every existing group key. -/
theorem ensureGroup_keys_sub (gs : List (String × List DbEntry)) (g g' : String)
    (h : g' ∈ gs.map Prod.fst) : g' ∈ (ensureGroup gs g).map Prod.fst := by
  unfold ensureGroup
  split
  · exact h
  · rw [List.map_append]
    exact List.mem_append.2 (Or.inl h)

/-- `appendToGroup` keeps every existing group key. -/
theorem appendToGroup_keys_sub (gs : List (String × List DbEntry)) (g : String) (db : DbEntry)
    (g' : String) (h : g' ∈ gs.map Prod.fst) :
    g' ∈ (appendToGroup gs g db).map Prod.fst := by
  unfold appendToGroup
  split
  · rw [List.map_map]
    have : (Prod.fst ∘ fun p : String × List DbEntry =>
        if p.1 = g then (p.1, p.2 ++ [db]) else p) = Prod.fst := by
      funext p
      by_cases hg : p.1 = g <;> simp [hg]
    rw [this]
    exact h
  · rw [List.map_append]
    exact List.mem_append.2 (Or.inl h)

/-- After `ensureGroup gs g`, the key `g` is present. -/
theorem ensureGroup_self_key (gs : List (String × List DbEntry)) (g : String) :
    g ∈ (ensureGroup gs g).map Prod.fst := by
  unfold ensureGroup
  split
  next h =>
    rcases List.any_eq_true.1 h with ⟨p, hp, hg⟩
    rcases List.mem_map.1 (List.mem_map_of_mem Prod.fst hp) with _
    exact List.mem_map.2 ⟨p, hp, by simpa using hg⟩
  next => simp

/-- Invariant of the grouping loop: no folder-engine entry is ever put
into a group's item list or into the ungrouped list. -/
theorem renderGroupsLoop_no_folder :
    ∀ (dbs : List DbEntry) (gs : List (String × List DbEntry)) (ung : List DbEntry),
      (∀ p ∈ gs, ∀ db ∈ p.2, db.engine ≠ "folder") →
      (∀ db ∈ ung, db.engine ≠ "folder") →
      (∀ p ∈ (renderGroupsLoop dbs gs ung).1, ∀ db ∈ p.2, db.engine ≠ "folder") ∧
      (∀ db ∈ (renderGroupsLoop dbs gs ung).2, db.engine ≠ "folder")
  | [], gs, ung, hg, hu => ⟨hg, hu⟩
  | db :: rest, gs, ung, hg, hu => by
    rw [renderGroupsLoop]
    by_cases hf : db.engine = "folder"
    · rw [if_pos hf]
      exact renderGroupsLoop_no_folder rest _ ung
        (fun p hp x hx => by
          rcases ensureGroup_members gs (folderGroupName db) p hp x hx with ⟨q, hq, hxq⟩
          exact hg q hq x hxq)
        hu
    · rw [if_neg hf]
      by_cases hgr : db.group ≠ ""
      · rw [if_pos hgr]
        exact renderGroupsLoop_no_folder rest _ ung
          (fun p hp x hx => by
            rcases appendToGroup_members gs db.group db p hp x hx with ⟨q, hq, hxq⟩ | hxdb
            · exact hg q hq x hxq
            · rw [hxdb]; exact hf)
          hu
      · rw [if_neg hgr]
        exact renderGroupsLoop_no_folder rest gs _
          hg
          (fun x hx => by
            rcases List.mem_append.1 hx with h | h
            · exact hu x h
            · simp at h
              rw [h]; exact hf)

/-- Group keys only accumulate across the grouping loop. -/
theorem renderGroupsLoop_keys_mono :
    ∀ (dbs : List DbEntry) (gs : List (String × List DbEntry)) (ung : List DbEntry)
      (g : String), g ∈ gs.map Prod.fst →
      g ∈ (renderGroupsLoop dbs gs ung).1.map Prod.fst
  | [], _, _, _, h => h
  | db :: rest, gs, ung, g, h => by
    rw [renderGroupsLoop]
    by_cases hf : db.engine = "folder"
    · rw [if_pos hf]
      exact renderGroupsLoop_keys_mono rest _ ung g (ensureGroup_keys_sub gs _ g h)
    · rw [if_neg hf]
      by_cases hgr : db.group ≠ ""
      · rw [if_pos hgr]
        exact renderGroupsLoop_keys_mono rest _ ung g (appendToGroup_keys_sub gs _ db g h)
      · rw [if_neg hgr]
        exact renderGroupsLoop_keys_mono rest gs _ g h

/-- Every folder placeholder's group name becomes a group key of the loop
result. -/
theorem renderGroupsLoop_folder_group :
    ∀ (dbs : List DbEntry) (gs : List (String × List DbEntry)) (ung : List DbEntry)
      (db : DbEntry), db ∈ dbs → db.engine = "folder" →
      folderGroupName db ∈ (renderGroupsLoop dbs gs ung).1.map Prod.fst
  | [], _, _, _, h, _ => absurd h (List.not_mem_nil _)
  | db' :: rest, gs, ung, db, h, hf => by
    rcases List.mem_cons.1 h with he | ht
    · subst he
      rw [renderGroupsLoop, if_pos hf]
      exact renderGroupsLoop_keys_mono rest _ ung _ (ensureGroup_self_key gs _)
    · rw [renderGroupsLoop]
      by_cases hf' : db'.engine = "folder"
      · rw [if_pos hf']
        exact renderGroupsLoop_folder_group rest _ ung db ht hf
      · rw [if_neg hf']
        by_cases hgr : db'.group ≠ ""
        · rw [if_pos hgr]
          exact renderGroupsLoop_folder_group rest _ ung db ht hf
        · rw [if_neg hgr]
          exact renderGroupsLoop_folder_group rest gs _ db ht hf

/-- C4: a folder is a connection record with engine kind "folder":
creating one posts `name`, `type := "folder"`, empty fields, `group` equal
to the (trimmed) folder name; and in the sidebar a folder entry only ever
produces a group placeholder — it appears in no item list, grouped or
ungrouped. -/
theorem C4_folder_record :
    (∀ s : String, s ≠ "" → jsTrim s ≠ "" →
      addFolder (some s) =
        some { name := jsTrim s, type := "folder", fields := [], group := jsTrim s }) ∧
    (∀ (dbs : List DbEntry) (db : DbEntry), db ∈ dbs → db.engine = "folder" →
      folderGroupName db ∈ (renderedGroups dbs).map Prod.fst) ∧
    (∀ (dbs : List DbEntry) (db : DbEntry), db ∈ renderedUngrouped dbs →
      db.engine ≠ "folder") ∧
    (∀ (dbs : List DbEntry) (p : String × List DbEntry), p ∈ renderedGroups dbs →
      ∀ db ∈ p.2, db.engine ≠ "folder") := by
  refine ⟨?post, ?grp, ?ung, ?items⟩
  case post =>
    intro s hs ht
    simp only [addFolder]
    rw [if_pos ⟨hs, ht⟩]
  case grp =>
    intro dbs db hdb hf
    unfold renderedGroups buildGroups
    rw [List.map_map]
    have : (Prod.fst ∘ fun p : String × List DbEntry => (p.1, sortByOrder p.2)) = Prod.fst := by
      funext p
      rfl
    rw [this]
    exact renderGroupsLoop_folder_group dbs [] [] db hdb hf
  case ung =>
    intro dbs db hdb
    unfold renderedUngrouped at hdb
    have hmem : db ∈ (buildGroups dbs).2 := by
      have := (List.mem_insertionSort leOrder).1 hdb
      exact this
    exact (renderGroupsLoop_no_folder dbs [] [] (by simp) (by simp)).2 db hmem
  case items =>
    intro dbs p hp db hdb
    unfold renderedGroups at hp
    rcases List.mem_map.1 hp with ⟨q, hq, hpq⟩
    have hdbq : db ∈ q.2 := by
      rw [← hpq] at hdb
      exact (List.mem_insertionSort leOrder).1 hdb
    exact (renderGroupsLoop_no_folder dbs [] [] (by simp) (by simp)).1 q hq db hdbq

/-- C4 witness: a concrete map with one folder entry and one grouped
connection. -/
theorem C4_folder_record_witness :
    addFolder (some " Prod ") =
      some { name := "Prod", type := "folder", fields := [], group := "Prod" } ∧
    folderGroupName { key := "f1", name := "Prod", engine := "folder", group := "Prod" } ∈
      (renderedGroups
        [ { key := "f1", name := "Prod", engine := "folder", group := "Prod" },
          { key := "k1", name := "db1", engine := "sqlite", group := "" } ]).map Prod.fst ∧
    (∀ db ∈ renderedUngrouped
        [ { key := "f1", name := "Prod", engine := "folder", group := "Prod" },
          { key := "k1", name := "db1", engine := "sqlite", group := "" } ],
      db.engine ≠ "folder") := by
  refine ⟨?_, ?_, ?_⟩
  · have h := C4_folder_record.1 " Prod " (by decide) (by decide)
    rw [h]
    rfl
  · exact C4_folder_record.2.1 _ _ (by decide) rfl
  · intro db hdb
    exact C4_folder_record.2.2.1 _ db hdb

/-- The batched local reorder is the elementwise application of all
updates to each entry. -/
theorem applyReorderLocal_eq_map :
    ∀ (updates : List ReorderUpdate) (dbs : List DbEntry),
      applyReorderLocal dbs updates = dbs.map (applyUpdates updates)
  | [], dbs => by
    simp only [applyReorderLocal, List.foldl_nil]
    have : applyUpdates [] = id := by
      funext db
      rfl
    rw [this, List.map_id]
  | u :: us, dbs => by
    have ih := applyReorderLocal_eq_map us
      (dbs.map (fun db => if db.key = u.key then { db with group := u.group, order := u.order } else db))
    simp only [applyReorderLocal, List.foldl_cons] at ih ⊢
    rw [ih, List.map_map]
    rfl

/-- Applying reorder updates to one entry never changes anything but its
`group` and `order`. -/
theorem applyUpdates_frame :
    ∀ (updates : List ReorderUpdate) (db : DbEntry),
      (applyUpdates updates db).key = db.key ∧
      (applyUpdates updates db).name = db.name ∧
      (applyUpdates updates db).engine = db.engine ∧
      (applyUpdates updates db).fields = db.fields ∧
      (applyUpdates updates db).extra_json = db.extra_json ∧
      (applyUpdates updates db).status = db.status
  | [], db => by simp [applyUpdates]
  | u :: us, db => by
    have step : applyUpdates (u :: us) db =
        applyUpdates us (if db.key = u.key then { db with group := u.group, order := u.order } else db) := by
      simp [applyUpdates]
    rw [step]
    have ih := applyUpdates_frame us
      (if db.key = u.key then { db with group := u.group, order := u.order } else db)
    by_cases h : db.key = u.key <;> simpa [h] using ih

/-- An entry whose key is in no update is untouched. -/
theorem applyUpdates_not_mem :
    ∀ (updates : List ReorderUpdate) (db : DbEntry),
      db.key ∉ updates.map ReorderUpdate.key → applyUpdates updates db = db
  | [], db, _ => rfl
  | u :: us, db, h => by
    have hk : db.key ≠ u.key := by
      intro he
      exact h (by simp [he])
    have ht : db.key ∉ us.map ReorderUpdate.key := by
      intro hm
      exact h (by simp [hm])
    simp only [applyUpdates, List.foldl_cons, if_neg hk]
    exact applyUpdates_not_mem us db ht

/-- `getD` through `map`, inside the length. -/
theorem getD_map_lt (f : DbEntry → DbEntry) :
    ∀ (l : List DbEntry) (i : Nat) (d : DbEntry), i < l.length →
      (l.map f).getD i d = f (l.getD i d)
  | [], i, _, h => absurd h (by simp)
  | x :: xs, 0, d, _ => rfl
  | x :: xs, i + 1, d, h => by
    simp only [List.map_cons, List.getD_cons_succ]
    exact getD_map_lt f xs i d (by simpa using h)

/-- The inserted entry is a member of the spliced list. -/
theorem mem_insertAt_self : ∀ (n : Nat) (a : DbEntry) (l : List DbEntry), a ∈ insertAt n a l
  | 0, a, l => by simp [insertAt]
  | _ + 1, a, [] => by simp [insertAt]
  | n + 1, a, x :: xs => by
    simp only [insertAt, List.mem_cons]
    exact Or.inr (mem_insertAt_self n a xs)

/-- Splicing keeps every original member. -/
theorem mem_insertAt_of_mem : ∀ (n : Nat) (a x : DbEntry) (l : List DbEntry),
    x ∈ l → x ∈ insertAt n a l
  | 0, a, x, l, h => by simp [insertAt, h]
  | _ + 1, a, x, [], h => absurd h (List.not_mem_nil x)
  | n + 1, a, x, y :: ys, h => by
    simp only [insertAt, List.mem_cons]
    rcases List.mem_cons.1 h with h' | h'
    · exact Or.inl h'
    · exact Or.inr (mem_insertAt_of_mem n a x ys h')

/-- Every update built by the drop handler carries the target group. -/
theorem mapIdxFrom_group (g : String) :
    ∀ (l : List DbEntry) (i : Nat),
      ∀ u ∈ mapIdxFrom i (fun n db => { key := db.key, group := g, order := (n : Int) }) l,
        u.group = g
  | [], _, u, hu => absurd hu (List.not_mem_nil u)
  | x :: xs, i, u, hu => by
    rcases List.mem_cons.1 hu with h | h
    · rw [h]
    · exact mapIdxFrom_group g xs (i + 1) u h

/-- The updates built by the drop handler have consecutive orders. -/
theorem mapIdxFrom_getD_order (g : String) :
    ∀ (l : List DbEntry) (i j : Nat) (d : ReorderUpdate), j < l.length →
      ((mapIdxFrom i (fun n db => { key := db.key, group := g, order := (n : Int) }) l).getD j d).order
        = ((i + j : Nat) : Int)
  | [], _, j, _, h => absurd h (by simp)
  | x :: xs, i, 0, d, _ => by simp [mapIdxFrom]
  | x :: xs, i, j + 1, d, h => by
    simp only [mapIdxFrom, List.getD_cons_succ]
    rw [mapIdxFrom_getD_order g xs (i + 1) j d (by simpa using h)]
    congr 1
    omega

/-- The update keys are exactly the keys of the spliced sibling list. -/
theorem mapIdxFrom_keys (g : String) :
    ∀ (l : List DbEntry) (i : Nat),
      (mapIdxFrom i (fun n db => { key := db.key, group := g, order := (n : Int) }) l).map
          ReorderUpdate.key
        = l.map DbEntry.key
  | [], _ => rfl
  | x :: xs, i => by
    simp only [mapIdxFrom, List.map_cons]
    rw [mapIdxFrom_keys g xs (i + 1)]

/-- The length of the drop handler's update batch. -/
theorem mapIdxFrom_length (g : String) :
    ∀ (l : List DbEntry) (i : Nat),
      (mapIdxFrom i (fun n db => { key := db.key, group := g, order := (n : Int) }) l).length
        = l.length
  | [], _ => rfl
  | x :: xs, i => by
    simp only [mapIdxFrom, List.length_cons]
    rw [mapIdxFrom_length g xs (i + 1)]

/-- A successful `databases[k]` lookup returns an entry with key `k`. -/
theorem lookupDb_key {dbs : List DbEntry} {k : String} {db : DbEntry}
    (h : lookupDb dbs k = some db) : db.key = k := by
  have := List.find?_some h
  simpa using this

/-- A successful `databases[k]` lookup returns a member of the map. -/
theorem lookupDb_mem {dbs : List DbEntry} {k : String} {db : DbEntry}
    (h : lookupDb dbs k = some db) : db ∈ dbs :=
  List.mem_of_find?_eq_some h

/-- C5: applying a reorder batch to the local map changes only the `group`
and `order` fields of the listed keys and leaves unlisted entries (and all
other fields) untouched; and a drop onto a target item produces a batch
that puts the dragged connection into the target's group and renumbers the
whole group with consecutive orders 0..n-1. -/
theorem C5_reorder_batch :
    (∀ (dbs : List DbEntry) (updates : List ReorderUpdate),
      (applyReorderLocal dbs updates).length = dbs.length ∧
      (∀ (i : Nat) (d : DbEntry), i < dbs.length →
        (((applyReorderLocal dbs updates).getD i d).key = (dbs.getD i d).key ∧
         ((applyReorderLocal dbs updates).getD i d).name = (dbs.getD i d).name ∧
         ((applyReorderLocal dbs updates).getD i d).engine = (dbs.getD i d).engine ∧
         ((applyReorderLocal dbs updates).getD i d).fields = (dbs.getD i d).fields ∧
         ((applyReorderLocal dbs updates).getD i d).extra_json = (dbs.getD i d).extra_json ∧
         ((applyReorderLocal dbs updates).getD i d).status = (dbs.getD i d).status) ∧
        ((dbs.getD i d).key ∉ updates.map ReorderUpdate.key →
          (applyReorderLocal dbs updates).getD i d = dbs.getD i d))) ∧
    (∀ (dbs : List DbEntry) (draggedKey targetKey : String)
       (draggedDb targetDb : DbEntry) (updates : List ReorderUpdate),
      lookupDb dbs draggedKey = some draggedDb →
      lookupDb dbs targetKey = some targetDb →
      handleDrop dbs draggedKey targetKey = some updates →
      ((∀ u ∈ updates, u.group = targetDb.group) ∧
       (∀ (j : Nat) (d : ReorderUpdate), j < updates.length →
         (updates.getD j d).order = (j : Int)) ∧
       draggedKey ∈ updates.map ReorderUpdate.key ∧
       (∀ db ∈ dbs, db.group = targetDb.group → db.key ∈ updates.map ReorderUpdate.key))) := by
  constructor
  · intro dbs updates
    rw [applyReorderLocal_eq_map]
    refine ⟨by simp, ?_⟩
    intro i d hi
    rw [getD_map_lt (applyUpdates updates) dbs i d hi]
    exact ⟨applyUpdates_frame updates (dbs.getD i d),
      fun hnm => applyUpdates_not_mem updates (dbs.getD i d) hnm⟩
  · intro dbs draggedKey targetKey draggedDb targetDb updates hld hlt hdrop
    unfold handleDrop at hdrop
    split at hdrop
    · exact absurd hdrop (by simp)
    next hguard =>
      rw [hld, hlt] at hdrop
      have hupd : updates =
          mapIdxFrom 0
            (fun i db => { key := db.key, group := targetDb.group, order := (i : Int) })
            (insertAt
              ((sortByOrder (dbs.filter
                (fun d => d.group = targetDb.group ∧ d.key ≠ draggedKey))).findIdx
                  (fun d => d.key = targetKey))
              draggedDb
              (sortByOrder (dbs.filter
                (fun d => d.group = targetDb.group ∧ d.key ≠ draggedKey)))) := by
        have := Option.some.inj hdrop
        exact this.symm
      set spliced := insertAt
          ((sortByOrder (dbs.filter
            (fun d => d.group = targetDb.group ∧ d.key ≠ draggedKey))).findIdx
              (fun d => d.key = targetKey))
          draggedDb
          (sortByOrder (dbs.filter
            (fun d => d.group = targetDb.group ∧ d.key ≠ draggedKey))) with hspliced
      refine ⟨?_, ?_, ?_, ?_⟩
      · intro u hu
        rw [hupd] at hu
        exact mapIdxFrom_group targetDb.group spliced 0 u hu
      · intro j d hj
        rw [hupd] at hj ⊢
        rw [mapIdxFrom_length targetDb.group spliced 0] at hj
        have := mapIdxFrom_getD_order targetDb.group spliced 0 j d hj
        simpa using this
      · rw [hupd, mapIdxFrom_keys targetDb.group spliced 0]
        have hmem : draggedDb ∈ spliced := mem_insertAt_self _ _ _
        have : draggedDb.key ∈ spliced.map DbEntry.key := List.mem_map_of_mem _ hmem
        rwa [lookupDb_key hld] at this
      · intro db hdb hg
        by_cases hk : db.key = draggedKey
        · rw [hupd, mapIdxFrom_keys targetDb.group spliced 0, hk]
          have hmem : draggedDb ∈ spliced := mem_insertAt_self _ _ _
          have : draggedDb.key ∈ spliced.map DbEntry.key := List.mem_map_of_mem _ hmem
          rwa [lookupDb_key hld] at this
        · have hsib : db ∈ dbs.filter (fun d => d.group = targetDb.group ∧ d.key ≠ draggedKey) :=
            List.mem_filter.2 ⟨hdb, by simp [hg, hk]⟩
          have hsort : db ∈ sortByOrder (dbs.filter
              (fun d => d.group = targetDb.group ∧ d.key ≠ draggedKey)) :=
            (List.mem_insertionSort leOrder).2 hsib
          have hmem : db ∈ spliced := mem_insertAt_of_mem _ _ _ _ hsort
          rw [hupd, mapIdxFrom_keys targetDb.group spliced 0]
          exact List.mem_map_of_mem _ hmem

/-- C5 witness: a concrete three-entry map; an update batch touching "a"
only, and a drop of "c" onto "a" renumbering group "G". -/
theorem C5_reorder_batch_witness :
    ((applyReorderLocal
        [ { key := "a", name := "A", engine := "sqlite", group := "G", order := 0 },
          { key := "b", name := "B", engine := "sqlite", group := "G", order := 1 },
          { key := "c", name := "C", engine := "sqlite", group := "", order := 0 } ]
        [ { key := "a", group := "H", order := 4 } ]).getD 1
          { key := "", name := "", engine := "", group := "", order := 0 } =
      { key := "b", name := "B", engine := "sqlite", group := "G", order := 1 }) ∧
    (∀ u ∈ [ { key := "c", group := "G", order := 0 },
             { key := "a", group := "G", order := 1 },
             { key := "b", group := "G", order := 2 } ], ReorderUpdate.group u = "G") := by
  constructor
  · have h := (C5_reorder_batch.1
      [ { key := "a", name := "A", engine := "sqlite", group := "G", order := 0 },
        { key := "b", name := "B", engine := "sqlite", group := "G", order := 1 },
        { key := "c", name := "C", engine := "sqlite", group := "", order := 0 } ]
      [ { key := "a", group := "H", order := 4 } ]).2 1
      { key := "", name := "", engine := "", group := "", order := 0 } (by decide)
    exact h.2 (by decide)
  · have h := (C5_reorder_batch.2
      [ { key := "a", name := "A", engine := "sqlite", group := "G", order := 0 },
        { key := "b", name := "B", engine := "sqlite", group := "G", order := 1 },
        { key := "c", name := "C", engine := "sqlite", group := "", order := 0 } ]
      "c" "a"
      { key := "c", name := "C", engine := "sqlite", group := "", order := 0 }
      { key := "a", name := "A", engine := "sqlite", group := "G", order := 0 }
      [ { key := "c", group := "G", order := 0 },
        { key := "a", group := "G", order := 1 },
        { key := "b", group := "G", order := 2 } ]
      (by decide) (by decide) (by decide)).1
    exact h

/-- C6: a 401 response makes the fetch wrapper redirect to the login page
and throw — no 401 response is ever returned to a caller; a 403 response
with a parsed `{error}` body surfaces that message and is still returned. -/
theorem C6_auth_responses :
    (∀ resp : HttpResponse, resp.status = 401 →
      fetchWrapper resp = FetchOutcome.redirectedToLogin) ∧
    (∀ (resp r : HttpResponse) (m : Option String),
      fetchWrapper resp = FetchOutcome.returned r m → r.status ≠ 401) ∧
    (∀ (resp : HttpResponse) (e : String),
      resp.status = 403 → resp.bodyParses = true → resp.errorField = some e →
      fetchWrapper resp = FetchOutcome.returned resp (some e)) := by
  refine ⟨?r401, ?never, ?r403⟩
  case r401 =>
    intro resp h
    rw [fetchWrapper, if_pos h]
  case never =>
    intro resp r m h
    by_cases h4 : resp.status = 401
    · rw [fetchWrapper, if_pos h4] at h
      exact absurd h (by simp)
    · rw [fetchWrapper, if_neg h4] at h
      by_cases h3 : resp.status = 403
      · rw [if_pos h3] at h
        have hr : resp = r := by
          injection h with h1 h2
        rw [← hr]
        exact h4
      · rw [if_neg h3] at h
        have hr : resp = r := by
          injection h with h1 h2
        rw [← hr]
        exact h4
  case r403 =>
    intro resp e h3 hbp he
    rw [fetchWrapper, if_neg (by rw [h3]; decide), if_pos h3, if_pos hbp, he]

/-- C6 witness: concrete 401 and 403 responses. -/
theorem C6_auth_responses_witness :
    fetchWrapper { status := 401, bodyParses := false } = FetchOutcome.redirectedToLogin ∧
    fetchWrapper { status := 403, errorField := some "Access denied" } =
      FetchOutcome.returned { status := 403, errorField := some "Access denied" }
        (some "Access denied") :=
  ⟨C6_auth_responses.1 { status := 401, bodyParses := false } rfl,
    C6_auth_responses.2.2 { status := 403, errorField := some "Access denied" }
      "Access denied" rfl rfl rfl⟩

/-- `databases[k]` after `updateDatabaseStatus` on the same key. -/
theorem lookupDb_updateDatabaseStatus :
    ∀ (dbs : List DbEntry) (k : String) (st : Status) (db : DbEntry),
      lookupDb dbs k = some db →
      lookupDb (updateDatabaseStatus dbs k st) k = some { db with status := some st }
  | [], k, st, db, h => by simp [lookupDb] at h
  | d :: rest, k, st, db, h => by
    by_cases hk : d.key = k
    · have hd : db = d := by
        unfold lookupDb at h
        rw [List.find?_cons_of_pos _ (by simp [hk])] at h
        exact (Option.some.inj h).symm
      unfold updateDatabaseStatus lookupDb
      rw [List.map_cons, if_pos hk,
        List.find?_cons_of_pos _ (by simp [hk]), hd]
    · have ht : lookupDb rest k = some db := by
        unfold lookupDb at h
        rwa [List.find?_cons_of_neg _ (by simp [hk])] at h
      unfold updateDatabaseStatus lookupDb
      rw [List.map_cons, if_neg hk, List.find?_cons_of_neg _ (by simp [hk])]
      exact lookupDb_updateDatabaseStatus rest k st db ht

/-- C7: the status poll runs on a fixed 5000 ms interval; each tick emits
a `check_status` for exactly the currently tracked keys; and a
`db_status_update` for a tracked key replaces that key's cached status. -/
theorem C7_status_polling :
    STATUS_POLL_INTERVAL_MS = 5000 ∧
    (∀ (dbs : List DbEntry) (k : String),
      k ∈ tickEmittedKeys dbs ↔ ∃ db ∈ dbs, db.key = k) ∧
    (∀ (dbs : List DbEntry) (k : String) (st : Status) (db : DbEntry),
      lookupDb dbs k = some db →
      lookupDb (updateDatabaseStatus dbs k st) k = some { db with status := some st }) := by
  refine ⟨rfl, ?keys, ?upd⟩
  case keys =>
    intro dbs k
    simp [tickEmittedKeys, List.mem_map]
  case upd =>
    exact lookupDb_updateDatabaseStatus

/-- C7 witness: the interval constant, tick emission and a status
replacement on a concrete two-entry map. -/
theorem C7_status_polling_witness :
    STATUS_POLL_INTERVAL_MS = 5000 ∧
    ("b" ∈ tickEmittedKeys
        [ { key := "a", name := "A", engine := "sqlite" },
          { key := "b", name := "B", engine := "sqlite" } ] ↔
      ∃ db ∈ [ ({ key := "a", name := "A", engine := "sqlite" } : DbEntry),
               { key := "b", name := "B", engine := "sqlite" } ], db.key = "b") ∧
    lookupDb
        (updateDatabaseStatus
          [ { key := "a", name := "A", engine := "sqlite" },
            { key := "b", name := "B", engine := "sqlite" } ]
          "b" { connected := true })
        "b" =
      some { key := "b", name := "B", engine := "sqlite",
             status := some { connected := true } } :=
  ⟨C7_status_polling.1,
    C7_status_polling.2.1 _ "b",
    C7_status_polling.2.2 _ "b" { connected := true }
      { key := "b", name := "B", engine := "sqlite" } (by decide)⟩

/-- C10: `updateDatabaseStatus` replaces only the `status` field of the
entry with the event's key, leaves every other entry untouched, and leaves
the whole map unchanged when the key is not present. -/
theorem C10_status_update_frame :
    ∀ (dbs : List DbEntry) (k : String) (st : Status),
      (updateDatabaseStatus dbs k st).length = dbs.length ∧
      (∀ (i : Nat) (d : DbEntry), i < dbs.length →
        (((dbs.getD i d).key = k →
          (updateDatabaseStatus dbs k st).getD i d = { dbs.getD i d with status := some st }) ∧
         ((dbs.getD i d).key ≠ k →
          (updateDatabaseStatus dbs k st).getD i d = dbs.getD i d))) ∧
      (k ∉ dbs.map DbEntry.key → updateDatabaseStatus dbs k st = dbs) := by
  intro dbs k st
  refine ⟨by simp [updateDatabaseStatus], ?_, ?_⟩
  · intro i d hi
    unfold updateDatabaseStatus
    rw [getD_map_lt _ dbs i d hi]
    constructor
    · intro hk
      rw [if_pos hk]
    · intro hk
      rw [if_neg hk]
  · intro hnm
    unfold updateDatabaseStatus
    have : ∀ db ∈ dbs, (if db.key = k then { db with status := some st } else db) = db := by
      intro db hdb
      rw [if_neg]
      intro he
      exact hnm (by rw [← he]; exact List.mem_map_of_mem _ hdb)
    calc dbs.map (fun db => if db.key = k then { db with status := some st } else db)
        = dbs.map id := List.map_congr_left this
      _ = dbs := List.map_id dbs

/-- C10 witness: a concrete `db_status_update` for key "b", and a miss for
an untracked key. -/
theorem C10_status_update_frame_witness :
    ((updateDatabaseStatus
        [ { key := "a", name := "A", engine := "sqlite" },
          { key := "b", name := "B", engine := "sqlite" } ]
        "b" { connected := false, error := some "down" }).getD 0
          { key := "", name := "", engine := "" } =
      { key := "a", name := "A", engine := "sqlite" }) ∧
    updateDatabaseStatus
        [ { key := "a", name := "A", engine := "sqlite" } ]
        "zzz" { connected := true } =
      [ { key := "a", name := "A", engine := "sqlite" } ] :=
  ⟨((C10_status_update_frame
      [ { key := "a", name := "A", engine := "sqlite" },
        { key := "b", name := "B", engine := "sqlite" } ]
      "b" { connected := false, error := some "down" }).2.1 0
      { key := "", name := "", engine := "" } (by decide)).2 (by decide),
    (C10_status_update_frame
      [ { key := "a", name := "A", engine := "sqlite" } ]
      "zzz" { connected := true }).2.2 (by decide)⟩

/-- Key effect of `ensureGroup`: append the key if new. -/
theorem ensureGroup_keys_eq (gs : List (String × List DbEntry)) (g : String) :
    (ensureGroup gs g).map Prod.fst =
      (if g ∈ gs.map Prod.fst then gs.map Prod.fst else gs.map Prod.fst ++ [g]) := by
  unfold ensureGroup
  by_cases h : gs.any (fun p => p.1 = g) = true
  · rw [if_pos h, if_pos]
    rcases List.any_eq_true.1 h with ⟨p, hp, hg⟩
    exact List.mem_map.2 ⟨p, hp, by simpa using hg⟩
  · have hnm : g ∉ gs.map Prod.fst := by
      intro hm
      rcases List.mem_map.1 hm with ⟨p, hp, hg⟩
      exact h (List.any_eq_true.2 ⟨p, hp, by simpa using hg⟩)
    rw [if_neg h, if_neg hnm, List.map_append]
    rfl

/-- Key effect of `appendToGroup`: append the key if new. -/
theorem appendToGroup_keys_eq (gs : List (String × List DbEntry)) (g : String) (db : DbEntry) :
    (appendToGroup gs g db).map Prod.fst =
      (if g ∈ gs.map Prod.fst then gs.map Prod.fst else gs.map Prod.fst ++ [g]) := by
  unfold appendToGroup
  by_cases h : gs.any (fun p => p.1 = g) = true
  · rw [if_pos h, if_pos]
    · rw [List.map_map]
      congr 1
      funext p
      by_cases hg : p.1 = g <;> simp [hg]
    · rcases List.any_eq_true.1 h with ⟨p, hp, hg⟩
      exact List.mem_map.2 ⟨p, hp, by simpa using hg⟩
  · have hnm : g ∉ gs.map Prod.fst := by
      intro hm
      rcases List.mem_map.1 hm with ⟨p, hp, hg⟩
      exact h (List.any_eq_true.2 ⟨p, hp, by simpa using hg⟩)
    rw [if_neg h, if_neg hnm, List.map_append]
    rfl

/-- The loop's group keys are the first-appearance fold of the entries'
group keys, started from the accumulator's keys. -/
theorem renderGroupsLoop_keys :
    ∀ (dbs : List DbEntry) (gs : List (String × List DbEntry)) (ung : List DbEntry),
      (renderGroupsLoop dbs gs ung).1.map Prod.fst =
        (dbs.filterMap groupKeyOf).foldl
          (fun acc g => if g ∈ acc then acc else acc ++ [g]) (gs.map Prod.fst)
  | [], gs, ung => by simp [renderGroupsLoop]
  | db :: rest, gs, ung => by
    rw [renderGroupsLoop]
    by_cases hf : db.engine = "folder"
    · rw [if_pos hf]
      have hkey : groupKeyOf db = some (folderGroupName db) := by
        simp [groupKeyOf, hf]
      rw [List.filterMap_cons, hkey, List.foldl_cons,
        renderGroupsLoop_keys rest _ ung, ensureGroup_keys_eq]
    · rw [if_neg hf]
      by_cases hgr : db.group ≠ ""
      · rw [if_pos hgr]
        have hkey : groupKeyOf db = some db.group := by
          simp [groupKeyOf, hf, hgr]
        rw [List.filterMap_cons, hkey, List.foldl_cons,
          renderGroupsLoop_keys rest _ ung, appendToGroup_keys_eq]
      · rw [if_neg hgr]
        have hkey : groupKeyOf db = none := by
          simp only [not_not] at hgr
          simp [groupKeyOf, hf, hgr]
        rw [List.filterMap_cons, hkey, renderGroupsLoop_keys rest gs _]

/-- C8, counterexample: with a "beta"-grouped entry inserted before an
"alpha"-grouped one, the sidebar renders group "beta" first — the group
rendering loop iterates `Object.keys(groups)` in insertion order, not the
sorted key list built on main.js line 764 — so groups are not rendered
sorted by name. -/
theorem C8_counterexample :
    (renderedGroups
      [ { key := "k1", name := "B1", engine := "sqlite", group := "beta" },
        { key := "k2", name := "A1", engine := "sqlite", group := "alpha" } ]).map Prod.fst
      = ["beta", "alpha"] ∧
    ¬ List.Pairwise (fun a b => strLe a b = true)
        ((renderedGroups
          [ { key := "k1", name := "B1", engine := "sqlite", group := "beta" },
            { key := "k2", name := "A1", engine := "sqlite", group := "alpha" } ]).map Prod.fst) := by
  decide

/-- C8 (amended): within each group and within the ungrouped root section
the connections are rendered sorted by ascending `order`; the groups
themselves are rendered in order of first appearance in the `databases`
map, not sorted by group name. -/
theorem C8_sidebar_order :
    (∀ dbs : List DbEntry, List.Sorted leOrder (renderedUngrouped dbs)) ∧
    (∀ (dbs : List DbEntry) (p : String × List DbEntry), p ∈ renderedGroups dbs →
      List.Sorted leOrder p.2) ∧
    (∀ dbs : List DbEntry, (renderedGroups dbs).map Prod.fst = firstAppearanceGroups dbs) := by
  refine ⟨?ung, ?grp, ?order⟩
  case ung =>
    intro dbs
    exact List.sorted_insertionSort leOrder _
  case grp =>
    intro dbs p hp
    unfold renderedGroups at hp
    rcases List.mem_map.1 hp with ⟨q, _, hpq⟩
    rw [← hpq]
    exact List.sorted_insertionSort leOrder _
  case order =>
    intro dbs
    unfold renderedGroups buildGroups firstAppearanceGroups dedupFirst
    rw [List.map_map]
    have hcomp : (Prod.fst ∘ fun p : String × List DbEntry => (p.1, sortByOrder p.2)) = Prod.fst := by
      funext p
      rfl
    rw [hcomp, renderGroupsLoop_keys dbs [] []]
    rfl

/-- C8 witness: sortedness and first-appearance group order on a concrete
two-group map. -/
theorem C8_sidebar_order_witness :
    List.Sorted leOrder (renderedUngrouped
      [ { key := "k1", name := "B1", engine := "sqlite", group := "beta", order := 7 },
        { key := "k3", name := "R", engine := "sqlite", group := "", order := 2 },
        { key := "k2", name := "A1", engine := "sqlite", group := "alpha", order := 1 } ]) ∧
    (renderedGroups
      [ { key := "k1", name := "B1", engine := "sqlite", group := "beta", order := 7 },
        { key := "k3", name := "R", engine := "sqlite", group := "", order := 2 },
        { key := "k2", name := "A1", engine := "sqlite", group := "alpha", order := 1 } ]).map
        Prod.fst =
      firstAppearanceGroups
        [ { key := "k1", name := "B1", engine := "sqlite", group := "beta", order := 7 },
          { key := "k3", name := "R", engine := "sqlite", group := "", order := 2 },
          { key := "k2", name := "A1", engine := "sqlite", group := "alpha", order := 1 } ] :=
  ⟨C8_sidebar_order.1 _, C8_sidebar_order.2.2 _⟩

/-- Prepending one escaped character preserves the entity discipline. -/
theorem entityOk_escapeCharL (c : Char) (rest : List Char) :
    entityOk (escapeCharL c ++ rest) = entityOk rest := by
  unfold escapeCharL
  by_cases h1 : c = '&'
  · rw [if_pos h1]
    show entityOk ('&' :: ('a' :: 'm' :: 'p' :: ';' :: rest)) = entityOk rest
    rw [entityOk]
    simp
  rw [if_neg h1]
  by_cases h2 : c = '<'
  · rw [if_pos h2]
    show entityOk ('&' :: ('l' :: 't' :: ';' :: rest)) = entityOk rest
    rw [entityOk]
    simp
  rw [if_neg h2]
  by_cases h3 : c = '>'
  · rw [if_pos h3]
    show entityOk ('&' :: ('g' :: 't' :: ';' :: rest)) = entityOk rest
    rw [entityOk]
    simp
  rw [if_neg h3]
  by_cases h4 : c = '"'
  · rw [if_pos h4]
    show entityOk ('&' :: ('q' :: 'u' :: 'o' :: 't' :: ';' :: rest)) = entityOk rest
    rw [entityOk]
    simp
  rw [if_neg h4]
  by_cases h5 : c = singleQuote
  · rw [if_pos h5]
    show entityOk ('&' :: ('#' :: '0' :: '3' :: '9' :: ';' :: rest)) = entityOk rest
    rw [entityOk]
    simp
  rw [if_neg h5]
  show entityOk (c :: rest) = entityOk rest
  rw [entityOk, if_neg h1]

/-- No escaped character produces a forbidden character. -/
theorem escapeCharL_no_special (c x : Char) (hx : x ∈ escapeCharL c) :
    x ≠ '<' ∧ x ≠ '>' ∧ x ≠ '"' ∧ x ≠ singleQuote := by
  unfold escapeCharL at hx
  split_ifs at hx with h1 h2 h3 h4 h5
  · simp only [List.mem_cons] at hx
    rcases hx with rfl | rfl | rfl | rfl | rfl | hx
    · exact ⟨by decide, by decide, by decide, by decide⟩
    · exact ⟨by decide, by decide, by decide, by decide⟩
    · exact ⟨by decide, by decide, by decide, by decide⟩
    · exact ⟨by decide, by decide, by decide, by decide⟩
    · exact ⟨by decide, by decide, by decide, by decide⟩
    · simp at hx
  · simp only [List.mem_cons] at hx
    rcases hx with rfl | rfl | rfl | rfl | hx
    · exact ⟨by decide, by decide, by decide, by decide⟩
    · exact ⟨by decide, by decide, by decide, by decide⟩
    · exact ⟨by decide, by decide, by decide, by decide⟩
    · exact ⟨by decide, by decide, by decide, by decide⟩
    · simp at hx
  · simp only [List.mem_cons] at hx
    rcases hx with rfl | rfl | rfl | rfl | hx
    · exact ⟨by decide, by decide, by decide, by decide⟩
    · exact ⟨by decide, by decide, by decide, by decide⟩
    · exact ⟨by decide, by decide, by decide, by decide⟩
    · exact ⟨by decide, by decide, by decide, by decide⟩
    · simp at hx
  · simp only [List.mem_cons] at hx
    rcases hx with rfl | rfl | rfl | rfl | rfl | rfl | hx
    · exact ⟨by decide, by decide, by decide, by decide⟩
    · exact ⟨by decide, by decide, by decide, by decide⟩
    · exact ⟨by decide, by decide, by decide, by decide⟩
    · exact ⟨by decide, by decide, by decide, by decide⟩
    · exact ⟨by decide, by decide, by decide, by decide⟩
    · exact ⟨by decide, by decide, by decide, by decide⟩
    · simp at hx
  · simp only [List.mem_cons] at hx
    rcases hx with rfl | rfl | rfl | rfl | rfl | rfl | hx
    · exact ⟨by decide, by decide, by decide, by decide⟩
    · exact ⟨by decide, by decide, by decide, by decide⟩
    · exact ⟨by decide, by decide, by decide, by decide⟩
    · exact ⟨by decide, by decide, by decide, by decide⟩
    · exact ⟨by decide, by decide, by decide, by decide⟩
    · exact ⟨by decide, by decide, by decide, by decide⟩
    · simp at hx
  · simp only [List.mem_singleton] at hx
    rw [hx]
    exact ⟨h2, h3, h4, h5⟩

/-- The escaped text contains no forbidden character. -/
theorem escapeList_no_special :
    ∀ (l : List Char) (x : Char), x ∈ escapeList l →
      x ≠ '<' ∧ x ≠ '>' ∧ x ≠ '"' ∧ x ≠ singleQuote
  | [], x, hx => absurd hx (List.not_mem_nil x)
  | c :: rest, x, hx => by
    rw [escapeList] at hx
    rcases List.mem_append.1 hx with h | h
    · exact escapeCharL_no_special c x h
    · exact escapeList_no_special rest x h

/-- Every ampersand in escaped text begins one of the five entities. -/
theorem escapeList_entityOk : ∀ l : List Char, entityOk (escapeList l) = true
  | [] => by simp [escapeList, entityOk]
  | c :: rest => by
    rw [escapeList, entityOk_escapeCharL]
    exact escapeList_entityOk rest

/-- C9: `escapeHtml` output contains none of `<`, `>`, `"`, `'`, and
every ampersand in it begins one of the five entities
`&amp; &lt; &gt; &quot; &#039;`; every non-null cell value in query
results and table previews is rendered as the escaped value truncated to
at most 100 characters. -/
theorem C9_escape_html :
    (∀ s : String,
      (∀ c ∈ (escapeHtml s).data, c ≠ '<' ∧ c ≠ '>' ∧ c ≠ '"' ∧ c ≠ singleQuote) ∧
      entityOk (escapeHtml s).data = true) ∧
    (∀ v : String,
      queryResultCell (some v) = truncate100 (escapeHtml v) ∧
      tablePreviewCell (some v) = truncate100 (escapeHtml v) ∧
      (queryResultCell (some v)).length ≤ 100 ∧
      (tablePreviewCell (some v)).length ≤ 100) := by
  constructor
  · intro s
    constructor
    · intro c hc
      exact escapeList_no_special s.data c hc
    · exact escapeList_entityOk s.data
  · intro v
    refine ⟨rfl, rfl, ?_, ?_⟩
    · show (truncate100 (escapeHtml v)).length ≤ 100
      unfold truncate100
      calc (String.mk ((escapeHtml v).data.take 100)).length
          = ((escapeHtml v).data.take 100).length := rfl
        _ ≤ 100 := by
            rw [List.length_take]
            exact min_le_left _ _
    · show (truncate100 (escapeHtml v)).length ≤ 100
      unfold truncate100
      calc (String.mk ((escapeHtml v).data.take 100)).length
          = ((escapeHtml v).data.take 100).length := rfl
        _ ≤ 100 := by
            rw [List.length_take]
            exact min_le_left _ _

/-- C9 witness: the escape property applied at a concrete hostile string,
and the cell rendering of a long value. -/
theorem C9_escape_html_witness :
    ('&' ≠ '<' ∧ '&' ≠ '>' ∧ '&' ≠ '"' ∧ '&' ≠ singleQuote) ∧
    entityOk (escapeHtml "<script>alert(1)</script> & 'q'").data = true ∧
    (queryResultCell (some "a&b")).length ≤ 100 :=
  ⟨(C9_escape_html.1 "<script>alert(1)</script> & 'q'").1 '&' (by decide),
    (C9_escape_html.1 "<script>alert(1)</script> & 'q'").2,
    (C9_escape_html.2 "a&b").2.2.1⟩

end DbMonitor
